import Mathlib

/-!
Verification development for `a-blog-out-of-deep-space`, a static-site HTTP
server.  The definitions below are a shallow embedding of the library modules
`src/extract.rs`, `src/file.rs` and `src/router.rs` (the tests of the crate and
benches exercise the library `router`, so those modules are the authoritative
implementation).

Conventions of the embedding:
- Rust `&str` / `String` values are Lean `String`s; the Rust string primitives
  used by the source (`split`, `trim`, `split_once` containment, `ends_with`,
  `strip_suffix`) are defined below over `String.data` (the character list),
  which is faithful for the valid-UTF-8 strings Rust guarantees.
- Byte buffers (`Bytes`, `Vec<u8>`) are `List Nat`.
- An HTTP response is its status code, its header list (name/value pairs, in
  insertion order, names in the `http` crate canonical lowercase form) and
  its body bytes.
- The `Accept-Encoding` header reaching `Encoding::from_request_parts` is an
  `Option String`: `none` covers both an absent header and one whose bytes are
  not readable as a string (`HeaderValue::to_str` failing) — both `?` exits of
  `from_req_parts` yield `None` and hence the default encoding.
-/

/-! ## Rust string primitives, over the character list -/

/-- Rust `str::split(sep)` on a single-character separator: every maximal
run between separators, empty runs preserved, one empty piece for the empty
string. -/
def splitOnChar (c : Char) : List Char → List (List Char)
  | [] => [[]]
  | x :: xs =>
    let rest := splitOnChar c xs
    if x = c then [] :: rest
    else
      match rest with
      | [] => [[x]]
      | r :: rs => (x :: r) :: rs

/-- Rust `str::split(',')` producing `String` pieces. -/
def strSplit (s : String) (c : Char) : List String :=
  (splitOnChar c s.data).map String.mk

/-- Rust `str::trim`: drop leading and trailing whitespace.  Header values
that survive `HeaderValue::to_str` only contain space and tab as whitespace,
both covered by `Char.isWhitespace`. -/
def strTrim (s : String) : String :=
  String.mk (((s.data.dropWhile Char.isWhitespace).reverse.dropWhile Char.isWhitespace).reverse)

/-- Rust `str::contains(char)`; `s.split_once(c)` returns `Some` exactly when
`s` contains `c`. -/
def strContains (s : String) (c : Char) : Bool :=
  s.data.contains c

/-- Rust `str::ends_with`. -/
def strEndsWith (s suffix : String) : Bool :=
  suffix.data.isSuffixOf s.data

/-- Rust `str::strip_suffix`: `some` of the remaining front part when
`suffix` is a suffix of `s`. -/
def strStripSuffix (s suffix : String) : Option String :=
  if strEndsWith s suffix then
    some (String.mk (s.data.take (s.data.length - suffix.data.length)))
  else
    none

/-! ## `src/extract.rs` — content-encoding negotiation -/

/-- Embeds `enum Encoding` from `src/extract.rs`. -/
inductive Encoding
  | identity
  | gzip
  | brotli
deriving DecidableEq

/-- Embeds `Encoding::default()` (the `#[default]` variant). -/
def Encoding.default : Encoding := .identity

/-- Embeds `Encoding::ALL_ENCODINGS`. -/
def Encoding.allEncodings : String := "gzip, br"

/-- Embeds `Encoding::into_content_encoding_value` from `src/extract.rs`. -/
def Encoding.intoContentEncodingValue : Encoding → Option String
  | .identity => none
  | .gzip => some "gzip"
  | .brotli => some "br"

/-- Embeds `impl FromStr for Encoding` from `src/extract.rs`: only the three exact
strings parse; everything else (including `*`) is an error. -/
def Encoding.fromStr : String → Option Encoding
  | "identity" => some .identity
  | "gzip" => some .gzip
  | "br" => some .brotli
  | _ => none

/-- The inner `from_req_parts` of `Encoding::from_request_parts`
(`src/extract.rs` lines 53–68): split the header on commas, trim each chunk,
drop chunks containing `;` (the `split_once(';')` arm), parse the rest, and
take the first success. -/
def fromReqParts (acceptEncoding : Option String) : Option Encoding :=
  match acceptEncoding with
  | none => none
  | some v =>
    (((strSplit v ',').filterMap fun chunk =>
        let trimmed := strTrim chunk
        if strContains trimmed ';' then none else some trimmed).filterMap
      Encoding.fromStr).head?

/-- Embeds `Encoding::from_request_parts`: `from_req_parts(..).unwrap_or_default()`. -/
def encodingFromRequestParts (acceptEncoding : Option String) : Encoding :=
  (fromReqParts acceptEncoding).getD Encoding.default

/-- Embeds `struct IfNoneMatch(pub String)` from `src/extract.rs`. -/
structure IfNoneMatch where
  value : String
deriving DecidableEq

/-! ## `src/file.rs` — content types, loaded files, response assembly -/

/-- Embeds `enum ContentType` from `src/file.rs`. -/
inductive ContentType
  | html
  | js
  | svg
  | css
  | xml
  | txt
  | woff
  | woff2
  | png
deriving DecidableEq

/-- Embeds `ContentType::into_header_value` from `src/file.rs`. -/
def ContentType.intoHeaderValue : ContentType → String
  | .html => "text/html; charset=utf-8"
  | .js => "application/javascript; charset=utf-8"
  | .svg => "image/svg+xml"
  | .css => "text/css; charset=utf-8"
  | .xml => "application/xml"
  | .txt => "text/plain"
  | .woff => "font/woff"
  | .woff2 => "font/woff2"
  | .png => "image/png"

/-- Embeds `ContentType::is_compressible` from `src/file.rs`. -/
def ContentType.isCompressible : ContentType → Bool
  | .html | .js | .svg | .css | .xml | .txt => true
  | .woff | .woff2 | .png => false

/-- Embeds `ContentType::from_file_ext` from `src/file.rs`. -/
def ContentType.fromFileExt : String → Option ContentType
  | "html" => some .html
  | "js" => some .js
  | "svg" => some .svg
  | "css" => some .css
  | "xml" => some .xml
  | "txt" => some .txt
  | "woff" => some .woff
  | "woff2" => some .woff2
  | "png" => some .png
  | _ => none

/-- Byte buffers (`axum::body::Bytes`). -/
abbrev ByteBuf := List Nat

/-- Embeds `struct DataFile(Bytes)` from `src/file.rs`. -/
structure DataFile where
  bytes : ByteBuf
deriving DecidableEq

/-- Embeds `struct TextFile` from `src/file.rs`: the raw text plus its eagerly
computed gzip and brotli encodings. -/
structure TextFile where
  gzCompressed : ByteBuf
  brCompressed : ByteBuf
  contents : ByteBuf
deriving DecidableEq

/-- Embeds `enum File` from `src/file.rs`. -/
inductive File
  | data (d : DataFile)
  | text (t : TextFile)
deriving DecidableEq

/-- Embeds `struct ServedFile` from `src/file.rs`. -/
structure ServedFile where
  eTag : String
  ty : ContentType
  file : File
deriving DecidableEq

/-- An assembled HTTP response: status, header list in insertion order
(canonical lowercase names), body bytes. -/
structure Response where
  status : Nat
  headers : List (String × String)
  body : ByteBuf
deriving DecidableEq

/-- First value of a header, like `HeaderMap::get`. -/
def Response.getHeader (r : Response) (name : String) : Option String :=
  (r.headers.find? fun h => h.1 == name).map (·.2)

/-- Embeds `HeaderMap::remove`: drop the entry for a name. -/
def removeHeader (name : String) (hs : List (String × String)) : List (String × String) :=
  hs.filter fun h => h.1 != name

/-- The `Server` header value built in `ServedFile::to_response`. -/
def serverHeaderValue : String := "a-blog-out-of-deep-space/0.1.0"

/-- Embeds `TextFile::select_body_bytes` from `src/file.rs`. -/
def TextFile.selectBodyBytes (t : TextFile) : Encoding → ByteBuf
  | .gzip => t.gzCompressed
  | .brotli => t.brCompressed
  | .identity => t.contents

/-- Embeds `TextFile::setup_headers` from `src/file.rs`: always advertise
`Accept-Encoding: gzip, br`; when the negotiated encoding maps to a
content-encoding value, also set `Vary` and `Content-Encoding`. -/
def TextFile.setupHeaders (_ : TextFile) (encoding : Encoding) : List (String × String) :=
  [("accept-encoding", Encoding.allEncodings)] ++
    (match encoding.intoContentEncodingValue with
     | some contentEncoding => [("vary", "accept-encoding"), ("content-encoding", contentEncoding)]
     | none => [])

/-- Embeds `ServedFile::to_response` from `src/file.rs` (lines 53–87): base headers
`Server`/`Content-Type`/`Cache-Control`; a 304 with empty body when the
`If-None-Match` value equals the e-tag; otherwise a 200 carrying the selected
body plus `ETag` and an explicit `Content-Length`, with the text-file
negotiation headers inserted first (via `builder.headers_mut()`). -/
def ServedFile.toResponse (sf : ServedFile) (encoding : Encoding)
    (ifNoneMatch : Option IfNoneMatch) : Response :=
  let base := [("server", serverHeaderValue),
               ("content-type", sf.ty.intoHeaderValue),
               ("cache-control", "max-age=300")]
  if ifNoneMatch.any fun clientTag => clientTag.value == sf.eTag then
    { status := 304, headers := base, body := [] }
  else
    match sf.file with
    | .data dataFile =>
      { status := 200
        headers := base ++ [("etag", sf.eTag), ("content-length", toString dataFile.bytes.length)]
        body := dataFile.bytes }
    | .text textFile =>
      let bytes := textFile.selectBodyBytes encoding
      { status := 200
        headers := base ++ textFile.setupHeaders encoding ++
          [("etag", sf.eTag), ("content-length", toString bytes.length)]
        body := bytes }

/-- The body bytes `to_response` chooses on the 200 path. -/
def ServedFile.chosenBody (sf : ServedFile) (encoding : Encoding) : ByteBuf :=
  match sf.file with
  | .data dataFile => dataFile.bytes
  | .text textFile => textFile.selectBodyBytes encoding

/-! ## `src/router.rs` — route building, dispatch, fallback pages -/

/-- Embeds the `FromStr`/`from_bytes` parser of `http::StatusCode`: exactly three ASCII digits,
the first nonzero (so the value lies in `100..=999`). -/
def parseStatusCode (s : String) : Option Nat :=
  match s.data with
  | [a, b, c] =>
    if ('1' ≤ a ∧ a ≤ '9') ∧ ('0' ≤ b ∧ b ≤ '9') ∧ ('0' ≤ c ∧ c ≤ '9') then
      some ((a.toNat - 48) * 100 + (b.toNat - 48) * 10 + (c.toNat - 48))
    else none
  | _ => none

/-- Embeds `StatusCode::canonical_reason`, restricted to the status codes this
program produces (200 default, 304, and the fallback codes 404/408/500/503);
other codes never reach `status.to_string()` here. -/
def canonicalReason : Nat → Option String
  | 200 => some "OK"
  | 304 => some "Not Modified"
  | 404 => some "Not Found"
  | 408 => some "Request Timeout"
  | 500 => some "Internal Server Error"
  | 503 => some "Service Unavailable"
  | _ => none

/-- Embeds `Display for StatusCode`: the numeric code, a space, and the canonical
reason phrase. -/
def statusToString (status : Nat) : String :=
  toString status ++ " " ++ (canonicalReason status).getD "<unknown status code>"

/-- Bytes of an ASCII string (all strings fed to response bodies here are
ASCII, so char codes coincide with the UTF-8 bytes). -/
def strBytes (s : String) : ByteBuf :=
  s.data.map Char.toNat

/-- Embeds `status_code_page` from `src/router.rs` (lines 138–149): render the
status page via `to_response(encoding, None)` when one exists, otherwise
`Response::new(Body::from(status.to_string()))` (status 200, no headers);
then force the status and remove the `Accept-Encoding` and `Cache-Control`
headers. -/
def statusCodePage (page : Option ServedFile) (status : Nat) (encoding : Encoding) : Response :=
  let resp :=
    match page with
    | some file => file.toResponse encoding none
    | none => { status := 200, headers := [], body := strBytes (statusToString status) }
  { resp with
    status := status
    headers := removeHeader "cache-control" (removeHeader "accept-encoding" resp.headers) }

/-- The routes registered for one non-status file, from the body of the
`router` loop (`src/router.rs` lines 61–97).  `rel` is the `format!("/{rel_path}")`
string.  The first branch compares against `"index.html"` without the leading
slash (dead in practice); `/index.html`-suffixed paths additionally register
the suffix-stripped path (unless empty) and the trailing-slash path; every
file registers its full path. -/
def routeFile (rel : String) (sf : ServedFile) : List (String × ServedFile) :=
  (if rel = "index.html" then [("/", sf)]
   else if strEndsWith rel "/index.html" then
     (if rel ≠ "/index.html" then
        [((strStripSuffix rel "/index.html").getD "", sf)]
      else []) ++
     [((strStripSuffix rel "index.html").getD "", sf)]
   else []) ++
  [(rel, sf)]

/-- The mutable state the `router` loop threads: the captured 404 page, the
`status_pages` map, and the axum route table. -/
structure RouterState where
  notFoundPage : Option ServedFile := none
  statusPages : List (Nat × ServedFile) := []
  routes : List (String × ServedFile) := []
deriving DecidableEq

/-- Embeds `BTreeMap::insert` on the status-page map (later insert wins on
lookup). -/
def insertStatusPage (code : Nat) (sf : ServedFile) (pages : List (Nat × ServedFile)) :
    List (Nat × ServedFile) :=
  (code, sf) :: pages.filter fun p => p.1 != code

/-- Embeds `BTreeMap::get` on the status-page map. -/
def lookupStatusPage (pages : List (Nat × ServedFile)) (code : Nat) : Option ServedFile :=
  (pages.find? fun p => p.1 == code).map (·.2)

/-- One iteration of the `router` loop for a loaded file with relative path
`relPath` (components already `/`-joined): a `<status-code>.html` name is
stored in `status_pages` (and as the 404 page when the code is 404) with no
route; any other file registers its routes. -/
def addFile (st : RouterState) (relPath : String) (sf : ServedFile) : RouterState :=
  match (strStripSuffix relPath ".html").bind parseStatusCode with
  | some code =>
    { st with
      notFoundPage := if code = 404 then some sf else st.notFoundPage
      statusPages := insertStatusPage code sf st.statusPages }
  | none =>
    { st with routes := st.routes ++ routeFile ("/" ++ relPath) sf }

/-- The `router` builder: fold the loop body over the walked files. -/
def buildRouter (files : List (String × ServedFile)) : RouterState :=
  files.foldl (fun st f => addFile st f.1 f.2) {}

/-- Exact-path route lookup (the axum dispatch over the registered literal
routes). -/
def lookupRoute (routes : List (String × ServedFile)) (path : String) : Option ServedFile :=
  (routes.find? fun r => r.1 == path).map (·.2)

/-- Request dispatch: a registered route runs `serve_file` (which is
`to_response`); anything else runs the fallback closure
`status_code_page(not_found_page, 404, encoding)`. -/
def dispatch (st : RouterState) (path : String) (encoding : Encoding)
    (ifNoneMatch : Option IfNoneMatch) : Response :=
  match lookupRoute st.routes path with
  | some sf => sf.toResponse encoding ifNoneMatch
  | none => statusCodePage st.notFoundPage 404 encoding

/-- The errors `handle_middleware_error` distinguishes by downcast: the
load-shed `Overloaded` error, the timeout `Elapsed` error, and every other
boxed error. -/
inductive MiddlewareError
  | overloaded
  | elapsed
  | other
deriving DecidableEq

/-- The status code `handle_middleware_error` maps an error to
(`src/router.rs` lines 128–134). -/
def MiddlewareError.toStatus : MiddlewareError → Nat
  | .overloaded => 503
  | .elapsed => 408
  | .other => 500

/-- Embeds `handle_middleware_error` from `src/router.rs` (lines 123–136). -/
def handleMiddlewareError (statusPages : List (Nat × ServedFile)) (encoding : Encoding)
    (err : MiddlewareError) : Response :=
  statusCodePage (lookupStatusPage statusPages err.toStatus) err.toStatus encoding

/-! ## The wording the spec gives of the content negotiator (§4.4), for comparison
with the implementation -/

/-- Modelled from the spec: the algorithm of §4.4 in the words of the spec — split on
commas, trim each token, discard tokens containing `;`, and select the first
token in header order that parses against `{identity, gzip, br}`; absence of
a usable token or of the header yields `identity`. -/
def specNegotiate (acceptEncoding : Option String) : Encoding :=
  match acceptEncoding with
  | none => Encoding.identity
  | some v =>
    let tokens := (strSplit v ',').map strTrim
    let usable := tokens.filter fun t => !(strContains t ';')
    match usable.find? fun t => (Encoding.fromStr t).isSome with
    | some t => (Encoding.fromStr t).getD Encoding.identity
    | none => Encoding.identity

/-! ## Helper lemmas -/

theorem strExt {a b : String} (h : a.data = b.data) : a = b := by
  cases a; cases b; exact congrArg String.mk h

theorem strEndsWith_iff (s suffix : String) :
    strEndsWith s suffix = true ↔ suffix.data <:+ s.data := by
  unfold strEndsWith
  simp [List.isSuffixOf]

theorem strStripSuffix_append (a : List Char) (b : String) :
    strStripSuffix (String.mk (a ++ b.data)) b = some (String.mk a) := by
  have he : strEndsWith (String.mk (a ++ b.data)) b = true :=
    (strEndsWith_iff _ _).mpr ⟨a, rfl⟩
  simp only [strStripSuffix, he, if_true]
  rw [List.length_append, Nat.add_sub_cancel, List.take_left]

theorem strStripSuffix_eq_some {s suffix r : String}
    (h : strStripSuffix s suffix = some r) : s.data = r.data ++ suffix.data := by
  unfold strStripSuffix at h
  by_cases he : strEndsWith s suffix = true
  · rw [he, if_pos rfl] at h
    obtain ⟨pre, hpre⟩ := (strEndsWith_iff _ _).mp he
    have hr : String.mk (s.data.take (s.data.length - suffix.data.length)) = r :=
      Option.some.inj h
    have htake : s.data.take (s.data.length - suffix.data.length) = pre := by
      rw [← hpre, List.length_append, Nat.add_sub_cancel, List.take_left]
    rw [← hr, htake, show (String.mk pre).data = pre from rfl, hpre]
  · rw [eq_false_of_ne_true he, if_neg (by simp)] at h
    simp at h

theorem parseStatusCode_length {c : String} {n : Nat}
    (h : parseStatusCode c = some n) : c.data.length = 3 := by
  unfold parseStatusCode at h
  split at h
  · next a b c' heq => rw [heq]; rfl
  · exact absurd h (by simp)

theorem parseStatusCode_none_of_length {c : String}
    (h : c.data.length ≠ 3) : parseStatusCode c = none := by
  unfold parseStatusCode
  split
  · next a b c' heq => exact absurd (by rw [heq]; rfl) h
  · rfl

theorem statusCodePage_status (page : Option ServedFile) (status : Nat) (enc : Encoding) :
    (statusCodePage page status enc).status = status := by
  unfold statusCodePage
  cases page <;> rfl

theorem find?_removeHeader_self (name : String) (hs : List (String × String)) :
    ((removeHeader name hs).find? fun h => h.1 == name) = none := by
  rw [List.find?_eq_none]
  intro x hx
  have := List.of_mem_filter hx
  simpa using this

theorem find?_removeHeader_mono (name other : String) (hs : List (String × String))
    (h : (hs.find? fun x => x.1 == name) = none) :
    ((removeHeader other hs).find? fun x => x.1 == name) = none := by
  rw [List.find?_eq_none] at h ⊢
  intro x hx
  exact h x (List.mem_of_mem_filter hx)

theorem strBeqFalseOfLen {a b : String} (h : a.data.length ≠ b.data.length) :
    (a == b) = false := by
  apply beq_eq_false_iff_ne.mpr
  intro hab
  exact h (by rw [hab])

/-! ## Claims -/

theorem negotiateChain (l : List String) :
    (((l.filterMap fun chunk =>
        let trimmed := strTrim chunk
        if strContains trimmed ';' then none else some trimmed).filterMap
      Encoding.fromStr).head?).getD Encoding.identity
    = match ((l.map strTrim).filter fun t => !(strContains t ';')).find?
          (fun t => (Encoding.fromStr t).isSome) with
      | some t => (Encoding.fromStr t).getD Encoding.identity
      | none => Encoding.identity := by
  induction l with
  | nil => rfl
  | cons x l ih =>
    simp only [List.filterMap_cons, List.map_cons, List.filter_cons]
    by_cases hc : strContains (strTrim x) ';'
    · simpa [hc] using ih
    · simp only [hc, Bool.not_false, if_true, if_false, ite_true, ite_false]
      cases he : Encoding.fromStr (strTrim x) with
      | none => simpa [List.find?_cons, he] using ih
      | some e => simp [List.find?_cons, he]

/-- C1: the negotiated encoding is computed from the Accept-Encoding header
exactly as the spec describes — split on commas, trim, drop `;`-tokens,
take the first token parsing as identity/gzip/br; an absent or unreadable
header (the `none` input) and a header with no usable token give identity,
and the `*` wildcard never parses. -/
theorem c1_negotiation_matches_spec :
    (∀ acceptEncoding, encodingFromRequestParts acceptEncoding = specNegotiate acceptEncoding)
      ∧ Encoding.fromStr "*" = none
      ∧ encodingFromRequestParts none = Encoding.identity := by
  refine ⟨fun a => ?_, rfl, rfl⟩
  cases a with
  | none => rfl
  | some v =>
    show (fromReqParts (some v)).getD Encoding.default = _
    unfold fromReqParts specNegotiate Encoding.default
    exact negotiateChain (strSplit v ',')

/-- C2: `to_response` returns 304 Not Modified exactly when an If-None-Match
value is supplied and is string-equal to the fingerprint; any other supplied
value yields a 200. -/
theorem c2_not_modified_iff_exact_match (sf : ServedFile) (enc : Encoding)
    (inm : Option IfNoneMatch) :
    ((sf.toResponse enc inm).status = 304 ↔ ∃ t, inm = some t ∧ t.value = sf.eTag)
      ∧ ((sf.toResponse enc inm).status = 304 ∨ (sf.toResponse enc inm).status = 200) := by
  unfold ServedFile.toResponse
  cases inm with
  | none => cases hf : sf.file <;> simp [hf]
  | some t =>
    by_cases h : t.value = sf.eTag
    · simp [h]
    · cases hf : sf.file <;> simp [hf, h]

/-- A concrete non-compressible resource, as loaded from a png file. -/
def pngExample : ServedFile :=
  { eTag := "\"deadbeef\"", ty := .png, file := .data { bytes := [137, 80, 78, 71] } }

/-- A concrete compressible resource, as loaded from an html file. -/
def htmlExample : ServedFile :=
  { eTag := "\"abc123\"", ty := .html
    file := .text { gzCompressed := [31, 139, 8], brCompressed := [27, 6, 0], contents := [60, 104, 49, 62] } }

/-- C3 counterexample: at a concrete resource with a matching If-None-Match
value, the 304 response also carries the always-set `Server` header, so its
headers are not only `Cache-Control` and `Content-Type`. -/
theorem c3_counterexample :
    ¬ ∀ h ∈ (pngExample.toResponse Encoding.identity
        (some { value := "\"deadbeef\"" })).headers,
      h.1 = "cache-control" ∨ h.1 = "content-type" := by
  decide

/-- C3 (amended): on an exact If-None-Match match the response has an empty
body and exactly the three always-set headers `Server`, `Content-Type` and
`Cache-Control` — in particular no ETag, no Content-Length, no
Accept-Encoding, no Content-Encoding and no Vary header. -/
theorem c3_amended_not_modified_headers (sf : ServedFile) (enc : Encoding)
    (t : IfNoneMatch) (h : t.value = sf.eTag) :
    (sf.toResponse enc (some t)).body = []
      ∧ (sf.toResponse enc (some t)).headers.map Prod.fst
          = ["server", "content-type", "cache-control"] := by
  unfold ServedFile.toResponse
  simp [h]

theorem c3_witness :
    ({ value := "\"deadbeef\"" } : IfNoneMatch).value = pngExample.eTag
      ∧ ((pngExample.toResponse Encoding.gzip (some { value := "\"deadbeef\"" })).body = []
        ∧ (pngExample.toResponse Encoding.gzip
            (some { value := "\"deadbeef\"" })).headers.map Prod.fst
          = ["server", "content-type", "cache-control"]) :=
  ⟨by decide, c3_amended_not_modified_headers pngExample Encoding.gzip _ (by decide)⟩

/-- C4: with no conditional match the response is a 200 whose ETag header is
exactly the fingerprint and whose Content-Length header is explicitly the
decimal byte length of the body chosen for the negotiated encoding (the
compressed variant when one is served, the raw bytes otherwise). -/
theorem c4_ok_etag_content_length (sf : ServedFile) (enc : Encoding)
    (inm : Option IfNoneMatch) (h : ¬ ∃ t, inm = some t ∧ t.value = sf.eTag) :
    (sf.toResponse enc inm).status = 200
      ∧ (sf.toResponse enc inm).getHeader "etag" = some sf.eTag
      ∧ (sf.toResponse enc inm).getHeader "content-length"
          = some (toString (sf.chosenBody enc).length)
      ∧ (sf.toResponse enc inm).body = sf.chosenBody enc := by
  have hb : (inm.any fun clientTag => clientTag.value == sf.eTag) = false := by
    cases inm with
    | none => rfl
    | some t =>
      simp only [Option.any_some, beq_eq_false_iff_ne, ne_eq]
      exact fun hv => h ⟨t, rfl, hv⟩
  unfold ServedFile.toResponse ServedFile.chosenBody
  rw [hb]
  cases hf : sf.file with
  | data d =>
    refine ⟨rfl, ?_, ?_, rfl⟩ <;>
      simp [Response.getHeader, List.find?]
  | text t =>
    cases he : enc.intoContentEncodingValue with
    | none =>
      refine ⟨rfl, ?_, ?_, rfl⟩ <;>
        simp [Response.getHeader, List.find?, TextFile.setupHeaders, he]
    | some ce =>
      refine ⟨rfl, ?_, ?_, rfl⟩ <;>
        simp [Response.getHeader, List.find?, TextFile.setupHeaders, he]

theorem c4_witness :
    (¬ ∃ t, (some { value := "\"zzz\"" } : Option IfNoneMatch) = some t
        ∧ t.value = htmlExample.eTag)
      ∧ ((htmlExample.toResponse Encoding.gzip (some { value := "\"zzz\"" })).status = 200
        ∧ (htmlExample.toResponse Encoding.gzip (some { value := "\"zzz\"" })).getHeader "etag"
            = some htmlExample.eTag
        ∧ (htmlExample.toResponse Encoding.gzip
              (some { value := "\"zzz\"" })).getHeader "content-length"
            = some (toString (htmlExample.chosenBody Encoding.gzip).length)
        ∧ (htmlExample.toResponse Encoding.gzip (some { value := "\"zzz\"" })).body
            = htmlExample.chosenBody Encoding.gzip) :=
  ⟨by decide, c4_ok_etag_content_length htmlExample Encoding.gzip _ (by decide)⟩

/-- C5: a compressible (Text) resource served 200 always carries
`Accept-Encoding: gzip, br` whatever was requested; it carries
`Vary: Accept-Encoding` and `Content-Encoding: gzip`/`br` with the matching
precomputed compressed body exactly when the negotiated encoding is
gzip/brotli; under identity the raw text body is emitted with no
Content-Encoding and no Vary header. -/
theorem c5_text_negotiation_headers (sf : ServedFile) (t : TextFile) (enc : Encoding)
    (inm : Option IfNoneMatch) (hf : sf.file = File.text t)
    (h : ¬ ∃ tag, inm = some tag ∧ tag.value = sf.eTag) :
    (sf.toResponse enc inm).getHeader "accept-encoding" = some Encoding.allEncodings
      ∧ (sf.toResponse enc inm).getHeader "content-encoding" = enc.intoContentEncodingValue
      ∧ (sf.toResponse enc inm).getHeader "vary"
          = (if enc = Encoding.identity then none else some "accept-encoding")
      ∧ (sf.toResponse enc inm).body
          = (match enc with
             | Encoding.gzip => t.gzCompressed
             | Encoding.brotli => t.brCompressed
             | Encoding.identity => t.contents) := by
  have hb : (inm.any fun clientTag => clientTag.value == sf.eTag) = false := by
    cases inm with
    | none => rfl
    | some tag =>
      simp only [Option.any_some, beq_eq_false_iff_ne, ne_eq]
      exact fun hv => h ⟨tag, rfl, hv⟩
  unfold ServedFile.toResponse
  rw [hb]
  simp only [Bool.false_eq_true, if_false, hf]
  cases enc <;>
    simp [Response.getHeader, List.find?, TextFile.setupHeaders,
      Encoding.intoContentEncodingValue, TextFile.selectBodyBytes]

theorem c5_witness :
    htmlExample.file = File.text
        { gzCompressed := [31, 139, 8], brCompressed := [27, 6, 0], contents := [60, 104, 49, 62] }
      ∧ (¬ ∃ tag, (none : Option IfNoneMatch) = some tag ∧ tag.value = htmlExample.eTag)
      ∧ ((htmlExample.toResponse Encoding.brotli none).getHeader "accept-encoding"
            = some Encoding.allEncodings
        ∧ (htmlExample.toResponse Encoding.brotli none).getHeader "content-encoding"
            = Encoding.brotli.intoContentEncodingValue
        ∧ (htmlExample.toResponse Encoding.brotli none).getHeader "vary"
            = (if Encoding.brotli = Encoding.identity then none else some "accept-encoding")
        ∧ (htmlExample.toResponse Encoding.brotli none).body = [27, 6, 0]) :=
  ⟨by decide, by decide,
    c5_text_negotiation_headers htmlExample
      { gzCompressed := [31, 139, 8], brCompressed := [27, 6, 0], contents := [60, 104, 49, 62] }
      Encoding.brotli none (by decide) (by decide)⟩

/-- C10: a non-compressible (Data) resource produces, for any fixed
If-None-Match input, literally identical responses under all negotiated
encodings, and its response never carries an Accept-Encoding, Vary or
Content-Encoding header — it does not depend on the Accept-Encoding request
header at all. -/
theorem c10_data_independent_of_encoding (sf : ServedFile) (d : DataFile)
    (inm : Option IfNoneMatch) (hf : sf.file = File.data d) :
    (∀ e1 e2 : Encoding, sf.toResponse e1 inm = sf.toResponse e2 inm)
      ∧ (∀ e : Encoding,
          (sf.toResponse e inm).getHeader "accept-encoding" = none
            ∧ (sf.toResponse e inm).getHeader "vary" = none
            ∧ (sf.toResponse e inm).getHeader "content-encoding" = none) := by
  constructor
  · intro e1 e2
    unfold ServedFile.toResponse
    cases hb : (inm.any fun clientTag => clientTag.value == sf.eTag) <;> simp [hf]
  · intro e
    unfold ServedFile.toResponse
    cases hb : (inm.any fun clientTag => clientTag.value == sf.eTag) <;>
      simp [hf, Response.getHeader, List.find?]

theorem c10_witness :
    pngExample.file = File.data { bytes := [137, 80, 78, 71] }
      ∧ ((∀ e1 e2 : Encoding,
            pngExample.toResponse e1 none = pngExample.toResponse e2 none)
        ∧ (∀ e : Encoding,
            (pngExample.toResponse e none).getHeader "accept-encoding" = none
              ∧ (pngExample.toResponse e none).getHeader "vary" = none
              ∧ (pngExample.toResponse e none).getHeader "content-encoding" = none)) :=
  ⟨by decide,
    c10_data_independent_of_encoding pngExample { bytes := [137, 80, 78, 71] } none (by decide)⟩

/-- A concrete 404 status page, compressible, whose three body variants are
distinct. -/
def notFoundPageExample : ServedFile :=
  { eTag := "\"40404\"", ty := .html
    file := .text { gzCompressed := [20, 21], brCompressed := [22, 23], contents := [10, 11] } }

/-- C6 counterexample: with Accept-Encoding `gzip` the 404 fallback response
is assembled from the 404 page with the request-negotiated gzip encoding —
its body is the precomputed gzip variant, not the raw identity body the claim
requires; the 404 fallback is therefore not always served with identity
encoding. -/
theorem c6_counterexample :
    (statusCodePage (some notFoundPageExample) 404
        (encodingFromRequestParts (some "gzip"))).body ≠ [10, 11]
      ∧ (statusCodePage (some notFoundPageExample) 404
          (encodingFromRequestParts (some "gzip"))).body = [20, 21] := by
  decide

/-- C6 (amended): the 404 fallback is assembled from the 404 page with the
request-negotiated encoding (not always identity) and no conditional match,
its status forced to 404 and the Accept-Encoding and Cache-Control headers
removed before returning; when no 404 page exists a minimal response whose
body is the numeric status line text is synthesized. -/
theorem c6_amended_fallback (page : ServedFile) (enc : Encoding) :
    (statusCodePage (some page) 404 enc).status = 404
      ∧ (statusCodePage (some page) 404 enc).body = (page.toResponse enc none).body
      ∧ (statusCodePage (some page) 404 enc).getHeader "accept-encoding" = none
      ∧ (statusCodePage (some page) 404 enc).getHeader "cache-control" = none
      ∧ (statusCodePage (some page) 404 enc).headers
          = removeHeader "cache-control"
              (removeHeader "accept-encoding" (page.toResponse enc none).headers)
      ∧ (statusCodePage none 404 enc).status = 404
      ∧ (statusCodePage none 404 enc).body = strBytes (statusToString 404) := by
  refine ⟨rfl, rfl, ?_, ?_, rfl, rfl, rfl⟩
  · show (((removeHeader "cache-control"
        (removeHeader "accept-encoding" (page.toResponse enc none).headers)).find?
          fun h => h.1 == "accept-encoding").map (·.2)) = none
    rw [find?_removeHeader_mono _ _ _ (find?_removeHeader_self _ _)]
    rfl
  · show (((removeHeader "cache-control"
        (removeHeader "accept-encoding" (page.toResponse enc none).headers)).find?
          fun h => h.1 == "cache-control").map (·.2)) = none
    rw [find?_removeHeader_self]
    rfl

/-- C8: the middleware error handler maps the load-shed `Overloaded` error to
503, the timeout `Elapsed` error to 408 and every other error to 500, and
renders the result through the same `status_code_page`
status-page-or-synthesized-text mechanism as the 404 fallback, keyed by the
mapped status code (which the response carries). -/
theorem c8_middleware_error_mapping (pages : List (Nat × ServedFile)) (enc : Encoding) :
    (∀ err : MiddlewareError,
        handleMiddlewareError pages enc err
            = statusCodePage (lookupStatusPage pages err.toStatus) err.toStatus enc
          ∧ (handleMiddlewareError pages enc err).status = err.toStatus)
      ∧ MiddlewareError.toStatus MiddlewareError.overloaded = 503
      ∧ MiddlewareError.toStatus MiddlewareError.elapsed = 408
      ∧ MiddlewareError.toStatus MiddlewareError.other = 500 := by
  refine ⟨fun err => ⟨rfl, ?_⟩, rfl, rfl, rfl⟩
  exact statusCodePage_status _ _ _

theorem slashAppendData (p : String) : ("/" ++ p).data = '/' :: p.data := by
  rw [String.data_append]; rfl

theorem stripHtmlOfIndexPath (p : String) :
    strStripSuffix (p ++ "/index.html") ".html" = some (String.mk (p.data ++ "/index".data)) := by
  have hs : p ++ "/index.html" = String.mk ((p.data ++ "/index".data) ++ ".html".data) := by
    apply strExt
    rw [String.data_append, List.append_assoc]
    rfl
  rw [hs, strStripSuffix_append]

theorem statusCheckIndexPath (p : String) :
    (strStripSuffix (p ++ "/index.html") ".html").bind parseStatusCode = none := by
  rw [stripHtmlOfIndexPath]
  show parseStatusCode (String.mk (p.data ++ "/index".data)) = none
  apply parseStatusCode_none_of_length
  show (p.data ++ "/index".data).length ≠ 3
  rw [List.length_append, show ("/index".data).length = 6 from rfl]
  omega

theorem stripIndexHtmlSlash (p : String) :
    strStripSuffix ("/" ++ (p ++ "/index.html")) "/index.html" = some ("/" ++ p) := by
  have hs : "/" ++ (p ++ "/index.html") = String.mk (('/' :: p.data) ++ "/index.html".data) := by
    apply strExt
    rw [slashAppendData, String.data_append]
    rfl
  have hsp : "/" ++ p = String.mk ('/' :: p.data) := strExt (slashAppendData p)
  rw [hs, strStripSuffix_append, hsp]

theorem stripIndexHtml (p : String) :
    strStripSuffix ("/" ++ (p ++ "/index.html")) "index.html" = some ("/" ++ p ++ "/") := by
  have hs : "/" ++ (p ++ "/index.html")
      = String.mk ((('/' :: p.data) ++ ['/']) ++ "index.html".data) := by
    apply strExt
    rw [slashAppendData, String.data_append]
    simp [show "/index.html".data = '/' :: "index.html".data from rfl]
  have hsp : "/" ++ p ++ "/" = String.mk (('/' :: p.data) ++ ['/']) := by
    apply strExt
    rw [String.data_append, slashAppendData]
  rw [hs, strStripSuffix_append, hsp]

theorem indexPathAssoc (p : String) : "/" ++ (p ++ "/index.html") = "/" ++ p ++ "/index.html" := by
  apply strExt
  simp [String.data_append, List.append_assoc]

theorem relNeIndexHtml (p : String) : ("/" ++ (p ++ "/index.html")) ≠ "index.html" := by
  intro h
  have hd := congrArg String.data h
  rw [slashAppendData] at hd
  exact absurd (List.head_eq_of_cons_eq hd) (by decide)

theorem relEndsWithIndexHtml (p : String) :
    strEndsWith ("/" ++ (p ++ "/index.html")) "/index.html" = true := by
  apply (strEndsWith_iff _ _).mpr
  refine ⟨'/' :: p.data, ?_⟩
  rw [slashAppendData, String.data_append]
  rfl

theorem relNeSlashIndexHtml (p : String) : ("/" ++ (p ++ "/index.html")) ≠ "/index.html" := by
  intro h
  have hd := congrArg List.length (congrArg String.data h)
  rw [slashAppendData, String.data_append] at hd
  simp [List.length_append] at hd

theorem routeFile_index (p : String) (sf : ServedFile) :
    routeFile ("/" ++ (p ++ "/index.html")) sf
      = [("/" ++ p, sf), ("/" ++ p ++ "/", sf), ("/" ++ p ++ "/index.html", sf)] := by
  unfold routeFile
  rw [if_neg (relNeIndexHtml p), if_pos (relEndsWithIndexHtml p),
    if_pos (relNeSlashIndexHtml p), stripIndexHtmlSlash, stripIndexHtml, indexPathAssoc]
  rfl

theorem slashPathNeIndexHtml (q : String) : ("/" ++ q) ≠ "index.html" := by
  intro h
  have hd := congrArg String.data h
  rw [slashAppendData] at hd
  exact absurd (List.head_eq_of_cons_eq hd) (by decide)

theorem addFile_index (st : RouterState) (p : String) (sf : ServedFile) :
    addFile st (p ++ "/index.html") sf
      = { st with routes := st.routes ++
          [("/" ++ p, sf), ("/" ++ p ++ "/", sf), ("/" ++ p ++ "/index.html", sf)] } := by
  unfold addFile
  simp only [statusCheckIndexPath]
  rw [routeFile_index]

theorem addFile_plain (st : RouterState) (rp : String) (sf : ServedFile)
    (hstat : (strStripSuffix rp ".html").bind parseStatusCode = none)
    (hidx : strEndsWith ("/" ++ rp) "/index.html" = false) :
    addFile st rp sf = { st with routes := st.routes ++ [("/" ++ rp, sf)] } := by
  unfold addFile
  simp only [hstat]
  unfold routeFile
  rw [if_neg (slashPathNeIndexHtml rp), hidx]
  simp

theorem lenSlashP (p : String) : ("/" ++ p).data.length = p.data.length + 1 := by
  rw [slashAppendData]
  rfl

theorem lenSlashPSlash (p : String) : ("/" ++ p ++ "/").data.length = p.data.length + 2 := by
  rw [String.data_append, List.length_append, lenSlashP]
  rfl

theorem lenSlashPIndex (p : String) :
    ("/" ++ p ++ "/index.html").data.length = p.data.length + 12 := by
  rw [String.data_append, List.length_append, lenSlashP]
  rfl

/-- C9: a file at relative path `p/index.html` with nonempty `p` registers the
same single resource under the three aliases `/p`, `/p/` and `/p/index.html`
(so a GET on any alias produces the identical response, hence identical
status, body and content-type), while a non-index, non-status-page file
registers exactly one route, its full canonical path. -/
theorem c9_index_alias_routes (p : String) (sf : ServedFile) (st : RouterState)
    (_hp : p ≠ "") :
    (addFile st (p ++ "/index.html") sf
        = { st with routes := st.routes ++
            [("/" ++ p, sf), ("/" ++ p ++ "/", sf), ("/" ++ p ++ "/index.html", sf)] })
      ∧ (∀ rp : String, (strStripSuffix rp ".html").bind parseStatusCode = none →
          strEndsWith ("/" ++ rp) "/index.html" = false →
          addFile st rp sf = { st with routes := st.routes ++ [("/" ++ rp, sf)] })
      ∧ (∀ (enc : Encoding) (inm : Option IfNoneMatch),
          dispatch (addFile {} (p ++ "/index.html") sf) ("/" ++ p) enc inm
              = sf.toResponse enc inm
            ∧ dispatch (addFile {} (p ++ "/index.html") sf) ("/" ++ p ++ "/") enc inm
              = sf.toResponse enc inm
            ∧ dispatch (addFile {} (p ++ "/index.html") sf) ("/" ++ p ++ "/index.html") enc inm
              = sf.toResponse enc inm) := by
  have hne12 : (("/" ++ p : String) == ("/" ++ p ++ "/")) = false :=
    strBeqFalseOfLen (by rw [lenSlashP, lenSlashPSlash]; omega)
  have hne13 : (("/" ++ p : String) == ("/" ++ p ++ "/index.html")) = false :=
    strBeqFalseOfLen (by rw [lenSlashP, lenSlashPIndex]; omega)
  have hne23 : (("/" ++ p ++ "/" : String) == ("/" ++ p ++ "/index.html")) = false :=
    strBeqFalseOfLen (by rw [lenSlashPSlash, lenSlashPIndex]; omega)
  refine ⟨addFile_index st p sf, fun rp hstat hidx => addFile_plain st rp sf hstat hidx,
    fun enc inm => ?_⟩
  rw [addFile_index]
  have hroutes : ({ ({} : RouterState) with routes := ({} : RouterState).routes ++
      [("/" ++ p, sf), ("/" ++ p ++ "/", sf), ("/" ++ p ++ "/index.html", sf)] }
        : RouterState).routes
      = [("/" ++ p, sf), ("/" ++ p ++ "/", sf), ("/" ++ p ++ "/index.html", sf)] := rfl
  refine ⟨?_, ?_, ?_⟩ <;>
    · unfold dispatch lookupRoute
      rw [hroutes]
      simp [List.find?, hne12, hne13, hne23,
        Prod.ext_iff]

theorem c9_witness :
    ("posts" : String) ≠ ""
      ∧ ((addFile {} ("posts" ++ "/index.html") htmlExample
            = { ({} : RouterState) with routes := ({} : RouterState).routes ++
                [("/" ++ "posts", htmlExample), ("/" ++ "posts" ++ "/", htmlExample),
                  ("/" ++ "posts" ++ "/index.html", htmlExample)] })
        ∧ (∀ rp : String, (strStripSuffix rp ".html").bind parseStatusCode = none →
            strEndsWith ("/" ++ rp) "/index.html" = false →
            addFile {} rp htmlExample
              = { ({} : RouterState) with routes := ({} : RouterState).routes ++
                  [("/" ++ rp, htmlExample)] })
        ∧ (∀ (enc : Encoding) (inm : Option IfNoneMatch),
            dispatch (addFile {} ("posts" ++ "/index.html") htmlExample) ("/" ++ "posts") enc inm
                = htmlExample.toResponse enc inm
              ∧ dispatch (addFile {} ("posts" ++ "/index.html") htmlExample)
                  ("/" ++ "posts" ++ "/") enc inm
                = htmlExample.toResponse enc inm
              ∧ dispatch (addFile {} ("posts" ++ "/index.html") htmlExample)
                  ("/" ++ "posts" ++ "/index.html") enc inm
                = htmlExample.toResponse enc inm)) :=
  ⟨by decide, c9_index_alias_routes "posts" htmlExample {} (by decide)⟩

theorem mkData (s : String) : String.mk s.data = s := by
  cases s
  rfl

theorem mem_routeFile {x : String × ServedFile} {rel : String} {sf : ServedFile}
    (hx : x ∈ routeFile rel sf) :
    x.1 = rel ∨ x.1 = "/"
      ∨ (∃ y : List Char, rel.data = y ++ "/index.html".data ∧ x.1.data = y)
      ∨ (∃ y : List Char, rel.data = y ++ "/index.html".data ∧ x.1.data = y ++ ['/']) := by
  unfold routeFile at hx
  rcases List.mem_append.mp hx with hx | hx
  · by_cases h1 : rel = "index.html"
    · rw [if_pos h1] at hx
      simp at hx
      exact Or.inr (Or.inl (by rw [hx]))
    · rw [if_neg h1] at hx
      by_cases h2 : strEndsWith rel "/index.html" = true
      · rw [h2, if_pos rfl] at hx
        obtain ⟨y, hy⟩ := (strEndsWith_iff rel "/index.html").mp h2
        have hrel : rel = String.mk (y ++ "/index.html".data) := strExt (by rw [hy])
        have hr1 : strStripSuffix rel "/index.html" = some (String.mk y) := by
          rw [hrel, strStripSuffix_append]
        have hrel2 : rel = String.mk ((y ++ ['/']) ++ "index.html".data) := by
          apply strExt
          rw [show (String.mk ((y ++ ['/']) ++ "index.html".data)).data
              = (y ++ ['/']) ++ "index.html".data from rfl, List.append_assoc]
          rw [show (['/'] ++ "index.html".data : List Char) = "/index.html".data from rfl]
          exact hy.symm
        have hr2 : strStripSuffix rel "index.html" = some (String.mk (y ++ ['/'])) := by
          rw [hrel2, strStripSuffix_append]
        rcases List.mem_append.mp hx with hx | hx
        · by_cases h3 : rel ≠ "/index.html"
          · rw [if_pos h3] at hx
            simp [hr1] at hx
            exact Or.inr (Or.inr (Or.inl ⟨y, hy.symm, by rw [hx]⟩))
          · rw [if_neg h3] at hx
            simp at hx
        · simp [hr2] at hx
          exact Or.inr (Or.inr (Or.inr ⟨y, hy.symm, by rw [hx]⟩))
      · rw [eq_false_of_ne_true h2, if_neg (by simp)] at hx
        simp at hx
  · simp at hx
    exact Or.inl (by rw [hx])

theorem statusPathData (c : String) :
    ("/" ++ c ++ ".html").data = ('/' :: c.data) ++ ".html".data := by
  rw [String.data_append, slashAppendData]

theorem statusFileStrip (c : String) :
    strStripSuffix (c ++ ".html") ".html" = some c := by
  have hc : c ++ ".html" = String.mk (c.data ++ ".html".data) := strExt (String.data_append c _)
  rw [hc, strStripSuffix_append, mkData]

theorem routeFile_avoids_statusPath (c : String) (n : Nat) (hc : parseStatusCode c = some n)
    (rp : String) (sf : ServedFile)
    (hstat : (strStripSuffix rp ".html").bind parseStatusCode = none)
    (hne : rp ≠ c ++ ".html/index.html") :
    ((routeFile ("/" ++ rp) sf).find? fun r => r.1 == ("/" ++ c ++ ".html")) = none := by
  rw [List.find?_eq_none]
  intro x hx
  simp only [beq_iff_eq]
  intro heq
  have hlen : c.data.length = 3 := parseStatusCode_length hc
  have ht := statusPathData c
  rcases mem_routeFile hx with h | h | ⟨y, hy, hxy⟩ | ⟨y, hy, hxy⟩
  · -- the full path route: rp would itself be the status-code name
    have hrp : rp = c ++ ".html" := by
      apply strExt
      rw [String.data_append]
      have hd := congrArg String.data (h.symm.trans heq)
      rw [slashAppendData, ht] at hd
      exact List.tail_eq_of_cons_eq hd
    have hbad : (strStripSuffix rp ".html").bind parseStatusCode = some n := by
      rw [hrp, statusFileStrip]
      show parseStatusCode c = some n
      exact hc
    rw [hstat] at hbad
    exact Option.noConfusion hbad
  · -- the "/" route: impossible length
    have hd := congrArg (fun s : String => s.data.length) (h.symm.trans heq)
    simp only [ht, List.length_append, List.length_cons, hlen] at hd
    simp at hd
  · -- the stripped alias: rp would live under the <code>.html directory
    have hrp : rp = c ++ ".html/index.html" := by
      apply strExt
      have hd : ('/' :: rp.data) = y ++ "/index.html".data := by
        rw [← slashAppendData, hy]
      rw [← hxy, heq, ht, List.cons_append] at hd
      have htail := List.tail_eq_of_cons_eq hd
      rw [String.data_append, htail]
      simp only [List.append_eq, List.append_assoc]
      rw [show (".html".data ++ "/index.html".data : List Char) = ".html/index.html".data from by
          decide]
    exact hne hrp
  · -- the trailing-slash alias: its last character is a slash, not an l
    have h1 : ("/" ++ c ++ ".html").data.getLast? = some 'l' := by
      rw [ht, List.getLast?_append_of_ne_nil _ (by decide)]
      rfl
    have h2 : ("/" ++ c ++ ".html").data.getLast? = some '/' := by
      rw [← heq, hxy, List.getLast?_append_of_ne_nil _ (by decide)]
      rfl
    rw [h1] at h2
    exact absurd (Option.some.inj h2) (by decide)

theorem addFile_status (c : String) (n : Nat) (hc : parseStatusCode c = some n)
    (st : RouterState) (sf : ServedFile) :
    addFile st (c ++ ".html") sf
      = { st with
          notFoundPage := if n = 404 then some sf else st.notFoundPage
          statusPages := insertStatusPage n sf st.statusPages } := by
  unfold addFile
  simp only [statusFileStrip, Option.some_bind, hc]

theorem lookupRoute_addFile_none (c : String) (n : Nat) (hc : parseStatusCode c = some n)
    (st : RouterState) (rp : String) (sf : ServedFile)
    (hne : rp ≠ c ++ ".html/index.html")
    (h : lookupRoute st.routes ("/" ++ c ++ ".html") = none) :
    lookupRoute (addFile st rp sf).routes ("/" ++ c ++ ".html") = none := by
  unfold addFile
  cases hs : (strStripSuffix rp ".html").bind parseStatusCode with
  | some code => exact h
  | none =>
    show lookupRoute (st.routes ++ routeFile ("/" ++ rp) sf) ("/" ++ c ++ ".html") = none
    unfold lookupRoute at h ⊢
    rw [List.find?_append]
    have h1 : (st.routes.find? fun r => r.1 == ("/" ++ c ++ ".html")) = none := by
      cases hf : st.routes.find? fun r => r.1 == ("/" ++ c ++ ".html") with
      | none => rfl
      | some v => rw [hf] at h; exact Option.noConfusion h
    rw [h1, Option.none_or, routeFile_avoids_statusPath c n hc rp sf hs hne]
    rfl

theorem lookupRoute_buildFold_none (c : String) (n : Nat) (hc : parseStatusCode c = some n)
    (files : List (String × ServedFile))
    (hdir : ∀ f ∈ files, f.1 ≠ c ++ ".html/index.html") :
    ∀ st : RouterState,
      lookupRoute st.routes ("/" ++ c ++ ".html") = none →
      lookupRoute
          ((files.foldl (fun st f => addFile st f.1 f.2) st)).routes
          ("/" ++ c ++ ".html") = none := by
  induction files with
  | nil => exact fun st h => h
  | cons f fs ih =>
    intro st h
    rw [List.foldl_cons]
    exact ih (fun g hg => hdir g (List.mem_cons_of_mem f hg)) _
      (lookupRoute_addFile_none c n hc st f.1 f.2 (hdir f (List.mem_cons_self f fs)) h)

/-- A resource behind a directory literally named `404.html`. -/
def shadowIndexFile : ServedFile :=
  { eTag := "\"ff\"", ty := .html
    file := .text { gzCompressed := [5], brCompressed := [6], contents := [7, 8] } }

/-- C7 counterexample: a directory named `404.html` containing an
`index.html` gets the suffix-stripped alias route `/404.html`, so a GET for
`/404.html` (whose prefix parses as a valid status code) is served as a 200
instead of terminating in the NotFound fallback with 404. -/
theorem c7_counterexample :
    (dispatch (buildRouter [("404.html/index.html", shadowIndexFile)]) "/404.html"
        Encoding.identity none).status = 200 := by
  decide

/-- C7 (amended): a `<status-code>.html` file is stored only in the
status-page table — it registers no route — and, provided no walked file lies
at relative path `<status-code>.html/index.html` (a directory named like a
status page), the path `/<status-code>.html` has no route in the built
router, so a GET for it terminates in the NotFound fallback with status
404. -/
theorem c7_status_page_not_routed (c : String) (n : Nat)
    (files : List (String × ServedFile)) (hc : parseStatusCode c = some n)
    (hdir : ∀ f ∈ files, f.1 ≠ c ++ ".html/index.html") :
    (∀ (st : RouterState) (sf : ServedFile),
        (addFile st (c ++ ".html") sf).routes = st.routes
          ∧ (addFile st (c ++ ".html") sf).statusPages = insertStatusPage n sf st.statusPages)
      ∧ lookupRoute (buildRouter files).routes ("/" ++ c ++ ".html") = none
      ∧ (∀ (enc : Encoding) (inm : Option IfNoneMatch),
          dispatch (buildRouter files) ("/" ++ c ++ ".html") enc inm
              = statusCodePage (buildRouter files).notFoundPage 404 enc
            ∧ (dispatch (buildRouter files) ("/" ++ c ++ ".html") enc inm).status = 404) := by
  have hnone : lookupRoute (buildRouter files).routes ("/" ++ c ++ ".html") = none :=
    lookupRoute_buildFold_none c n hc files hdir {} rfl
  refine ⟨fun st sf => by rw [addFile_status c n hc]; exact ⟨rfl, rfl⟩, hnone, fun enc inm => ?_⟩
  have hd : dispatch (buildRouter files) ("/" ++ c ++ ".html") enc inm
      = statusCodePage (buildRouter files).notFoundPage 404 enc := by
    unfold dispatch
    rw [hnone]
  exact ⟨hd, by rw [hd, statusCodePage_status]⟩

theorem c7_witness :
    parseStatusCode "404" = some 404
      ∧ (∀ f ∈ ([("404.html", shadowIndexFile)] : List (String × ServedFile)),
          f.1 ≠ "404" ++ ".html/index.html")
      ∧ ((∀ (st : RouterState) (sf : ServedFile),
            (addFile st ("404" ++ ".html") sf).routes = st.routes
              ∧ (addFile st ("404" ++ ".html") sf).statusPages
                  = insertStatusPage 404 sf st.statusPages)
        ∧ lookupRoute (buildRouter [("404.html", shadowIndexFile)]).routes
            ("/" ++ "404" ++ ".html") = none
        ∧ (∀ (enc : Encoding) (inm : Option IfNoneMatch),
            dispatch (buildRouter [("404.html", shadowIndexFile)])
                ("/" ++ "404" ++ ".html") enc inm
              = statusCodePage (buildRouter [("404.html", shadowIndexFile)]).notFoundPage 404 enc
            ∧ (dispatch (buildRouter [("404.html", shadowIndexFile)])
                ("/" ++ "404" ++ ".html") enc inm).status = 404)) :=
  ⟨by decide, by decide,
    c7_status_page_not_routed "404" 404 [("404.html", shadowIndexFile)] (by decide) (by decide)⟩
